import Mathlib

/-!
# Verification of the sxm-player worker supervision / streaming pipeline

A shallow embedding of the parts of `sxm-player` (package `sxm_player`,
queue implementation shared with `mortis_music/queue.py`) that the spec's
claims are about:

* `ProcessorWorker._path_filter`, `._process_cut`, `._process_cuts`
  (`src/sxm_player/workers/processor.py`)
* `ArchiveWorker._process_stream_file`, `._validate_name`
  (`src/sxm_player/workers/archiver.py`)
* `EventedWorker.run` / `LoopedWorker.run` (`src/sxm_player/workers/base.py`)
  and `Queue.safe_get` (`src/mortis_music/queue.py`)
* `Runner.stop_workers` / `Worker.terminate` (`src/sxm_player/runner.py`)
* `PlayerState` connection-backoff and stream-data methods
  (`src/sxm_player/models.py`) and `handle_update_metadata_event`
  (`src/sxm_player/handlers.py`)

Conventions: wall-clock instants and durations are rational numbers of
seconds (Python `datetime` / `timedelta` values are exact to the
microsecond, so ℚ is a faithful carrier); Python `int(x)` on an exact
rational is truncation toward zero; Python strings are `List Char`.
Filesystem side effects (`splice_file` byte sizes, `os.remove`) are made
explicit: splice results are an oracle argument, a filesystem is the list
of absolute paths that exist.
-/

namespace SxmPlayer

/-- Truncation toward zero of a rational, the behaviour of Python `int()`
applied to an exact ratio such as `timedelta / timedelta`. -/
def qtrunc (q : ℚ) : ℤ := q.num.tdiv (q.den : ℤ)

/-! ## Python string primitives

`ProcessorWorker._path_filter` and `ArchiveWorker._validate_name` use
`str.replace`, `str.strip` and `str.split`.  They are embedded on
`List Char`. -/

/-- One step bound for `str.replace`: the scan consumes at least one
character of the subject per step, so `s.length` steps suffice. -/
def replaceAllAux (pat rep : List Char) : Nat → List Char → List Char
  | 0, s => s
  | _ + 1, [] => []
  | fuel + 1, c :: rest =>
    if pat.isPrefixOf (c :: rest) && !pat.isEmpty then
      rep ++ replaceAllAux pat rep fuel ((c :: rest).drop pat.length)
    else
      c :: replaceAllAux pat rep fuel rest

/-- Python `s.replace(pat, rep)` for a non-empty literal `pat`: replaces
every non-overlapping occurrence, scanning left to right, never rescanning
the replacement text. -/
def replaceAll (pat rep s : List Char) : List Char :=
  replaceAllAux pat rep s.length s

/-- Python `str.strip` whitespace set (ASCII part, which is all the
processor's inputs use). -/
def isStripSpace (c : Char) : Bool :=
  c = ' ' || c = '\t' || c = '\n' || c = '\r' || c = '\x0b' || c = '\x0c'

/-- Python `s.strip()`. -/
def pyStrip (s : List Char) : List Char :=
  ((s.dropWhile isStripSpace).reverse.dropWhile isStripSpace).reverse

/-- Python `s.split(sep)` for a single-character separator. -/
def splitOnChar (sep : Char) : List Char → List (List Char)
  | [] => [[]]
  | c :: rest =>
    let r := splitOnChar sep rest
    if c = sep then
      [] :: r
    else
      match r with
      | [] => [[c]]
      | g :: gs => (c :: g) :: gs

/-! ## `ProcessorWorker._path_filter` (processor.py lines 82-96) -/

/-- The replacement table of `_path_filter`, in the order the source
chains the `.replace` calls. -/
def pathFilterTable : List (List Char × List Char) :=
  [ ("Counterfeit.".data, "Counterfeit".data)
  , ("F**ker".data, "Fucker".data)
  , ("Trust?".data, "Trust".data)
  , ("P.O.D.".data, "POD".data)
  , ("//".data, "-".data)
  , ("@".data, "".data)
  , ("(".data, "".data)
  , (")".data, "".data) ]

/-- Applies a replacement table left to right (each entry is one
`str.replace` call on the whole current string). -/
def applyTable (table : List (List Char × List Char)) (s : List Char) : List Char :=
  table.foldl (fun acc p => replaceAll p.1 p.2 acc) s

/-- `ProcessorWorker._path_filter`: the chained `.replace` calls of the
source, followed by `.strip()`. -/
def pathFilter (s : List Char) : List Char :=
  pyStrip
    (replaceAll ")".data "".data
      (replaceAll "(".data "".data
        (replaceAll "@".data "".data
          (replaceAll "//".data "-".data
            (replaceAll "P.O.D.".data "POD".data
              (replaceAll "Trust?".data "Trust".data
                (replaceAll "F**ker".data "Fucker".data
                  (replaceAll "Counterfeit.".data "Counterfeit".data s))))))))

/-- `_path_filter` lifted to `String` (records store filtered fields). -/
def pathFilterStr (s : String) : String := ⟨pathFilter s.data⟩

/-- The table of `pathFilterTable` with the `"@"` entry applied before the
`"//"` entry — one of the reorderings the spec asserts is harmless. -/
def pathFilterTableSwapped : List (List Char × List Char) :=
  [ ("Counterfeit.".data, "Counterfeit".data)
  , ("F**ker".data, "Fucker".data)
  , ("Trust?".data, "Trust".data)
  , ("P.O.D.".data, "POD".data)
  , ("@".data, "".data)
  , ("//".data, "-".data)
  , ("(".data, "".data)
  , (")".data, "".data) ]

/-! ## Processor cut model (`processor.py`)

`_process_cut` works in wall-clock instants: `cut.time` is a `datetime`,
`cut.duration` and `CUT_PADDING` are `timedelta`s, an archive chunk's
window `(archive_start, archive_end)` is parsed out of its filename.  All
are carried here as rationals (seconds).  The outcome of
`splice_file` (`None` on a non-zero ffmpeg exit, else the output path,
whose on-disk byte size the processor then inspects) is abstracted as an
oracle `Cut → Option ℕ` giving the spliced file's size when ffmpeg
succeeds.  The worker-level guards the claims presuppose (an active
stream channel, live metadata and an open database) are taken as holding.
-/

/-- `CUT_PADDING = timedelta(seconds=20)` (processor.py line 22). -/
def CUT_PADDING : ℚ := 20

/-- `MAX_DUPLICATE_COUNT = 3` (processor.py line 21). -/
def MAX_DUPLICATE_COUNT : Nat := 3

/-- An archive chunk file: the `(window_start, window_end)` pair parsed
from its filename key, plus the path stored as the dict value. -/
structure ArchiveFile where
  path : String
  winStart : ℚ
  winStop : ℚ
deriving DecidableEq

/-- The dynamic type of a cut marker: `XMEpisodeMarker`, an `XMCutMarker`
whose `cut` is an `XMSong`, or any other marker (which `_process_cuts`
passes through and `_process_cut` rejects in its final `else`). -/
inductive CutKind
  | song
  | episode
  | other
deriving DecidableEq

/-- A cut marker as the processor reads it: `guid`, `time`, `duration`,
its dynamic kind, and the raw (unfiltered) title / first-artist fields
used by the dedup queries. -/
structure Cut where
  guid : String
  time : ℚ
  duration : ℚ
  kind : CutKind
  title : String
  artist : String
deriving DecidableEq

/-- A row of the `songs` table as `_process_cut` inserts it: note the
stored `title`/`artist` are the `_path_filter`ed strings. -/
structure SongRec where
  guid : String
  title : String
  artist : String
deriving DecidableEq

/-- A row of the `episodes` table as `_process_cut` inserts it. -/
structure EpisodeRec where
  guid : String
  title : String
deriving DecidableEq

/-- The persistence store: the two tables `songs` and `episodes`
(`models.py` `DBSong`/`DBEpisode`), each keyed by `guid`. -/
structure DB where
  songs : List SongRec
  episodes : List EpisodeRec
deriving DecidableEq

def DB.empty : DB := ⟨[], []⟩

/-- The archive-selection loop of `_process_cut` (processor.py lines
111-127): `start = cut.time + CUT_PADDING`, `padded_duration =
cut.duration + CUT_PADDING`, `end = start + padded_duration`; the first
archive (dict iteration order) with `archive_start < start and
archive_end > end` is taken, with `splice_start = start - archive_start`
and `splice_end = splice_start + padded_duration`. -/
def findArchive (archives : List ArchiveFile) (cut : Cut) :
    Option (ArchiveFile × ℚ × ℚ) :=
  let start := cut.time + CUT_PADDING
  let paddedDuration := cut.duration + CUT_PADDING
  let stop := start + paddedDuration
  match archives.find? (fun a => a.winStart < start && a.winStop > stop) with
  | none => none
  | some a => some (a, start - a.winStart, (start - a.winStart) + paddedDuration)

/-- Result of `_process_cut` on one cut: whether a record was inserted
(`return True`), the resulting store, and whether `splice_file` was
invoked at all. -/
structure CutResult where
  inserted : Bool
  db : DB
  spliced : Bool
deriving DecidableEq

/-- `ProcessorWorker._process_cut` (processor.py lines 98-223): find a
covering archive; dispatch on the marker's kind (an unknown kind returns
`False` before any splice); splice; drop results smaller than 1000
bytes; otherwise insert the record and return `True`. -/
def processCut (oracle : Cut → Option Nat) (archives : List ArchiveFile)
    (db : DB) (cut : Cut) : CutResult :=
  match findArchive archives cut with
  | none => ⟨false, db, false⟩
  | some _ =>
    match cut.kind with
    | .other => ⟨false, db, false⟩
    | .episode =>
      match oracle cut with
      | none => ⟨false, db, true⟩
      | some size =>
        if size < 1000 then ⟨false, db, true⟩
        else
          ⟨true,
            { db with
              episodes := db.episodes ++ [⟨cut.guid, pathFilterStr cut.title⟩] },
            true⟩
    | .song =>
      match oracle cut with
      | none => ⟨false, db, true⟩
      | some size =>
        if size < 1000 then ⟨false, db, true⟩
        else
          ⟨true,
            { db with
              songs :=
                db.songs ++
                  [⟨cut.guid, pathFilterStr cut.title, pathFilterStr cut.artist⟩] },
            true⟩

/-- Result of `_process_cuts`: the number of successfully processed cuts,
the resulting store, and the cuts for which `splice_file` was invoked. -/
structure CutsResult where
  processed : Nat
  db : DB
  spliced : List Cut
deriving DecidableEq

/-- The `continue` conditions at the head of `_process_cuts`' loop body:
zero duration; an `episodes` row with the cut's guid; for songs, the raw
`(title, artist)` duplicate cap, then a `songs` row with the cut's guid.
A marker of any other type has no pre-check (its `db_item` stays
`None`). -/
def shouldSkip (db : DB) (cut : Cut) : Bool :=
  if cut.duration = 0 then true
  else
    match cut.kind with
    | .episode => db.episodes.any (fun r => r.guid = cut.guid)
    | .song =>
      if
        MAX_DUPLICATE_COUNT ≤
          (db.songs.filter
            (fun r => r.title = cut.title && r.artist = cut.artist)).length
      then true
      else db.songs.any (fun r => r.guid = cut.guid)
    | .other => false

/-- `ProcessorWorker._process_cuts` (processor.py lines 225-276): for
each cut, either `shouldSkip` holds and the cut is skipped (no splice,
no insert), or `_process_cut` runs on it. -/
def processCuts (oracle : Cut → Option Nat) (archives : List ArchiveFile)
    (db : DB) : List Cut → CutsResult
  | [] => ⟨0, db, []⟩
  | cut :: rest =>
    if shouldSkip db cut then
      processCuts oracle archives db rest
    else
      let r := processCut oracle archives db cut
      let tail := processCuts oracle archives r.db rest
      ⟨(if r.inserted then 1 else 0) + tail.processed, tail.db,
        (if r.spliced then [cut] else []) ++ tail.spliced⟩

/-- One processing tick as the dedup claims see it: the archive chunks on
disk, the splice outcomes, and the cut markers of the live metadata
snapshot (`loop` runs `_process_cuts` on the song cuts and then on the
episode markers; both calls are instances of `processCuts`). -/
structure TickInput where
  archives : List ArchiveFile
  oracle : Cut → Option Nat
  cuts : List Cut

/-- Any number of processing ticks, each observing its own metadata and
archive snapshot, threading the persistent store. -/
def runTicks (db : DB) : List TickInput → DB
  | [] => db
  | t :: rest => runTicks (processCuts t.oracle t.archives db t.cuts).db rest

/-- Number of persisted records (across both tables) carrying a guid. -/
def DB.guidCount (db : DB) (g : String) : Nat :=
  (db.songs.filter (fun r => r.guid = g)).length +
    (db.episodes.filter (fun r => r.guid = g)).length

/-- Every stored record's guid belongs to its table's kind, as judged by
a fixed assignment `kindOf` of kinds to guids (the data model: a guid
identifies one cut marker, so one kind). -/
def kindConsistent (kindOf : String → CutKind) (db : DB) : Prop :=
  (∀ r ∈ db.songs, kindOf r.guid = CutKind.song) ∧
    ∀ r ∈ db.episodes, kindOf r.guid = CutKind.episode

/-- No table stores two records with one guid. -/
def noDupGuids (db : DB) : Prop :=
  (db.songs.map (fun r => r.guid)).Nodup ∧
    (db.episodes.map (fun r => r.guid)).Nodup

/-! ## Archiver chunk rolling (`archiver.py` lines 120-164)

`_process_stream_file` works from `start_time` (stream start / capture
file creation) and `now`; the claims' inputs are the same quantities.
`int(time_elapsed / ARCHIVE_CHUNK)` is float division of two `timedelta`s
truncated by `int()`, i.e. `qtrunc` of the exact ratio.  Whether the
target archive filename already exists on disk is passed in as a
predicate on the chunk's `(creation_time, archive_cutoff)` window (the
filename is a strftime rendering of exactly that pair). -/

/-- `ARCHIVE_CHUNK = timedelta(minutes=10)` in seconds. -/
def ARCHIVE_CHUNK : ℚ := 600

/-- `ARCHIVE_BUFFER = timedelta(seconds=5)` in seconds. -/
def ARCHIVE_BUFFER : ℚ := 5

/-- The splice request `_process_stream_file` issues: the covered window
`[winStart, winStop]` (also the output filename's two timestamps) and the
two integer second offsets handed to `splice_file`. -/
structure ArchiveRequest where
  winStart : ℚ
  winStop : ℚ
  spliceStart : ℤ
  spliceStop : ℤ
deriving DecidableEq

/-- `ArchiveWorker._process_stream_file`: returns the single splice
request of this tick, or `none` when no whole chunk has elapsed, no
channel is active, or the target file already exists.  (The
`_delete_old_archives` pruning pass deletes only files other than the
new chunk and is not part of this claim.) -/
def processStreamFile (channel : Option String) (now startTime : ℚ)
    (outputExists : ℚ → ℚ → Bool) : Option ArchiveRequest :=
  match channel with
  | none => none
  | some _ =>
    let maxArchiveCutoff := now - ARCHIVE_BUFFER
    let creationTime := startTime + ARCHIVE_BUFFER
    let timeElapsed := maxArchiveCutoff - creationTime
    let archiveChunks := qtrunc (timeElapsed / ARCHIVE_CHUNK)
    if 0 < archiveChunks then
      let wholeElapsed := (archiveChunks : ℚ) * ARCHIVE_CHUNK
      let archiveCutoff := creationTime + wholeElapsed
      if outputExists creationTime archiveCutoff then none
      else
        some ⟨creationTime, archiveCutoff, qtrunc ARCHIVE_BUFFER,
          qtrunc (ARCHIVE_BUFFER + wholeElapsed)⟩
    else none

/-! ## Archiver orphan deletion (`archiver.py` lines 57-75)

`loop` hands `_process_file` the absolute path
`os.path.join(stream_folder, stream_file)`; `_validate_name` rebinds the
argument to `os.path.basename(stream_file)` and calls
`os.remove(stream_file)` on that bare basename, which the OS resolves
against the process's current working directory.  A filesystem is the
list of absolute paths that exist; every path is a list of components. -/

abbrev AbsPath := List String

/-- The name check of `_validate_name`: `file_parts[-1] != "mp3" or
file_parts[0] != self._state.stream_channel` fails the file. -/
def validName (channel fileName : String) : Bool :=
  let parts := splitOnChar '.' fileName.data
  (parts.getLastD [] = "mp3".data) && (parts.headD [] = channel.data)

/-- `_validate_name` as it acts on the filesystem: on an invalid name it
removes `basename` resolved against `cwd` (`os.remove` of a bare file
name; removing a path that does not exist raises, which at worst ends the
worker — either way no other path is touched) and returns `False`. -/
def validateNameStep (cwd : AbsPath) (channel fileName : String)
    (fs : List AbsPath) : Bool × List AbsPath :=
  if validName channel fileName then (true, fs)
  else (false, fs.filter (fun p => p ≠ cwd ++ [fileName]))

/-! ## Evented worker loop (`workers/base.py` lines 121-153,
`mortis_music/queue.py` lines 51-60)

`Queue.safe_get` returns at most one pending message (the head of the
queue) or `None`; one iteration of `EventedWorker.run` calls it once per
subscribed queue, handles whatever it got, and then runs `loop()` iff
`time.time() > self._last_loop + self._delay`. -/

/-- `Queue.safe_get`: the head of the backlog, if any. -/
def safeGet {E : Type} (q : List E) : Option E × List E :=
  match q with
  | [] => (none, [])
  | e :: rest => (some e, rest)

/-- The `for queue in self._event_queues` pass of one iteration: one
`safe_get` per queue, the received events handled in queue order. -/
def serviceQueues {E : Type} : List (List E) → List E × List (List E)
  | [] => ([], [])
  | q :: qs =>
    let (e, q') := safeGet q
    let (es, qs') := serviceQueues qs
    (e.toList ++ es, q' :: qs')

/-- Observable outcome of one iteration of `EventedWorker.run`'s while
loop: the events handled, the backlog left pending, whether `loop()` ran,
and the resulting `_last_loop`. -/
structure IterationResult (E : Type) where
  handled : List E
  queues : List (List E)
  bodyRan : Bool
  lastLoop : ℚ
deriving DecidableEq

/-- One iteration of `EventedWorker.run` (base.py lines 134-146). -/
def eventedIteration {E : Type} (queues : List (List E))
    (now lastLoop delay : ℚ) : IterationResult E :=
  let (handled, queues') := serviceQueues queues
  if now > lastLoop + delay then ⟨handled, queues', true, now⟩
  else ⟨handled, queues', false, lastLoop⟩

/-! ## Worker run loops and exception handling (`workers/base.py`)

`LoopedWorker.run` (lines 88-95) runs `loop()` iterations with no
`try`; `EventedWorker.run` (lines 126-150) wraps its whole while loop in
`try/except Exception`, logs, and falls through to `cleanup()`.  A run is
abstracted by the sequence of outcomes its iterations would produce (the
shutdown flag is observed set after the listed iterations). -/

/-- What escapes a worker's `run()`: the exception that propagated (if
any), the exception that was caught and logged (if any), and whether
`cleanup()` ran. -/
structure RunOutcome (Err : Type) where
  escaped : Option Err
  logged : Option Err
  cleanupRan : Bool
deriving DecidableEq

/-- `LoopedWorker.run`: no handler, so the first raising iteration
propagates and `cleanup()` (which follows the loop) never runs. -/
def runLooped {Err : Type} : List (Except Err Unit) → RunOutcome Err
  | [] => ⟨none, none, true⟩
  | .ok _ :: rest => runLooped rest
  | .error e :: _ => ⟨some e, none, false⟩

/-- `EventedWorker.run`: the `except Exception` handler logs the first
raising iteration, nothing escapes, and `cleanup()` always runs. -/
def runEvented {Err : Type} : List (Except Err Unit) → RunOutcome Err
  | [] => ⟨none, none, true⟩
  | .ok _ :: rest => runEvented rest
  | .error e :: _ => ⟨none, some e, true⟩

/-! ## Supervisor shutdown (`runner.py` lines 120-243)

A worker's child process is abstracted by: whether `is_alive()` holds
when `stop_worker` examines it (after the global join pass), how many
`terminate()` signals it takes to die (`none` = unkillable), its exit
code when it has already exited, and how long its `join` would block if
unbounded. -/

/-- `STOP_WAIT_SECS = 3.0`. -/
def STOP_WAIT_SECS : ℚ := 3

/-- `NUM_TRIES = 3` in `Worker.terminate`. -/
def NUM_TRIES : Nat := 3

/-- The `time.sleep(0.01)` between terminate attempts. -/
def TERMINATE_PAUSE : ℚ := 1 / 100

structure WorkerProc where
  termSignalsToDie : Option Nat
  aliveAtCheck : Bool
  exitcode : ℤ
  joinDuration : ℚ
deriving DecidableEq

/-- `process.is_alive()` after `signals` terminate signals were sent. -/
def aliveAfter (w : WorkerProc) (signals : Nat) : Bool :=
  w.aliveAtCheck &&
    match w.termSignalsToDie with
    | some k => decide (signals < k)
    | none => true

/-- The `while tries and self.process.is_alive()` loop of
`Worker.terminate` (runner.py lines 130-135): total signals sent. -/
def terminateLoop (w : WorkerProc) : Nat → Nat → Nat
  | 0, sent => sent
  | tries + 1, sent =>
    if aliveAfter w sent then terminateLoop w tries (sent + 1) else sent

def terminateSignals (w : WorkerProc) : Nat :=
  terminateLoop w NUM_TRIES 0

/-- `Worker.terminate`'s return value: `True` iff the process is no
longer alive after the attempt loop. -/
def terminate (w : WorkerProc) : Bool :=
  !aliveAfter w (terminateSignals w)

/-- `Runner.stop_worker` (runner.py lines 220-243):
`(terminated, failed, running)` for one worker.  `failed` is never
assigned anything but `0` in the source. -/
def stopWorkerCounts (w : WorkerProc) : ℤ × ℤ × Bool :=
  if aliveAfter w 0 then
    if terminate w then (1, 0, false) else (0, 0, true)
  else if w.exitcode ≠ 0 then (2, 0, false) else (0, 0, false)

/-- The accumulation loop of `Runner.stop_workers` (runner.py lines
206-218): the returned `(num_failed, num_terminated)` pair — in that
order — and the `still_running` table the supervisor keeps. -/
def stopWorkersLoop : List WorkerProc → (ℤ × ℤ) × List WorkerProc
  | [] => ((0, 0), [])
  | w :: rest =>
    let r := stopWorkerCounts w
    let rec_ := stopWorkersLoop rest
    ((r.2.1 + rec_.1.1, r.1 + rec_.1.2),
      (if r.2.2 then [w] else []) ++ rec_.2)

/-- `_sleep_secs(STOP_WAIT_SECS, end_time)` at clock `t`. -/
def sleepSecs (maxSleep endTime t : ℚ) : ℚ :=
  max 0 (min (endTime - t) maxSleep)

/-- The graceful-join pass of `stop_workers` (runner.py lines 202-204):
each `process.join(join_secs)` blocks for the worker's own exit time or
the bounded `join_secs`, whichever is less; returns the clock after the
pass. -/
def joinPhaseClock (endTime : ℚ) : ℚ → List WorkerProc → ℚ
  | t, [] => t
  | t, w :: rest =>
    joinPhaseClock endTime
      (t + min w.joinDuration (sleepSecs STOP_WAIT_SECS endTime t)) rest

/-- Wall clock when `stop_workers`, started at `start`, returns: the
join pass plus the `0.01 s` pauses of the terminate attempts made for
workers still alive at their check. -/
def stopWorkersFinishClock (start : ℚ) (ws : List WorkerProc) : ℚ :=
  joinPhaseClock (start + STOP_WAIT_SECS) start ws +
    (ws.map (fun w =>
      if aliveAfter w 0 then (terminateSignals w : ℚ) * TERMINATE_PAUSE
      else 0)).sum

/-- Follows the claim's words (not the source): the number of workers
that could not be terminated — alive at the check and still alive after
the terminate attempts. -/
def claimFailedCount (ws : List WorkerProc) : ℤ :=
  ((ws.filter (fun w => aliveAfter w 0 && !terminate w)).length : ℤ)

/-- Follows the claim's words (not the source): the number of workers
that were terminated. -/
def claimTerminatedCount (ws : List WorkerProc) : ℤ :=
  ((ws.filter (fun w => aliveAfter w 0 && terminate w)).length : ℤ)

/-! ## Connection backoff (`models.py` lines 12-14 and 266-304)

`time.monotonic()` is made an explicit `now` argument; `_raw_channels is
not None` is the `connected` flag. -/

def COOLDOWN_SHORT : ℚ := 10
def COOLDOWN_MED : ℚ := 60
def COOLDOWN_LONG : ℚ := 600

structure BackoffState where
  failures : Nat
  cooldown : ℚ
  last_failure : ℚ
  connected : Bool
deriving DecidableEq

/-- `PlayerState.is_connected` (lines 266-271): reports the flag and, as
a side effect, zeroes `_failures` when connected and the last failure is
more than 300 s old. -/
def is_connected (now : ℚ) (st : BackoffState) : Bool × BackoffState :=
  if st.connected && decide (now - st.last_failure > 300) then
    (st.connected, { st with failures := 0 })
  else (st.connected, st)

/-- `PlayerState.can_connect` (lines 273-275). -/
def can_connect (now : ℚ) (st : BackoffState) : Bool :=
  decide (now > st.cooldown)

/-- `PlayerState.increase_cooldown` (lines 288-299): the extra seconds
granted by the current failure tier, and the new cooldown deadline. -/
def increase_cooldown (now : ℚ) (st : BackoffState) : ℚ × BackoffState :=
  let extra :=
    if st.failures < 3 then COOLDOWN_SHORT
    else if st.failures < 5 then COOLDOWN_MED
    else COOLDOWN_LONG
  (extra, { st with cooldown := now + extra })

/-- `PlayerState.mark_failure` (lines 301-304). -/
def mark_failure (now : ℚ) (st : BackoffState) : BackoffState :=
  { st with failures := st.failures + 1, last_failure := now }

/-- `PlayerState.mark_attempt` (lines 277-286): when allowed, records a
failure and assigns the cooldown tier; returns the tier it assigned. -/
def mark_attempt (now : ℚ) (st : BackoffState) : Option ℚ × BackoffState :=
  if can_connect now st then
    let st1 := mark_failure now st
    let r := increase_cooldown now st1
    (some r.1, r.2)
  else (none, st)

/-! ## Replicated stream state (`models.py` lines 159-192,
`handlers.py` lines 234-241)

Only the fields the invariant claim is about. -/

structure StreamFields where
  stream_url : Option String
  stream_channel : Option String
  raw_channels : Option (List String)
deriving DecidableEq

/-- `PlayerState.update_stream_data` (lines 163-165): assigns both fields
from the event payload pair. -/
def update_stream_data (value : Option String × Option String)
    (st : StreamFields) : StreamFields :=
  { st with stream_channel := value.1, stream_url := value.2 }

/-- `PlayerState.update_channels` (lines 179-189): stores the raw channel
list; a `None` list also clears `stream_url` and `stream_channel`. -/
def update_channels (value : Option (List String))
    (st : StreamFields) : StreamFields :=
  match value with
  | none =>
    { st with raw_channels := none, stream_url := none, stream_channel := none }
  | some v => { st with raw_channels := some v }

/-- `handle_update_metadata_event` (handlers.py lines 234-241): assigns
`state.stream_channel` from the metadata payload's channel id;
`update_live` touches neither `stream_url` nor `stream_channel`. -/
def handle_update_metadata_event (channelId : String)
    (st : StreamFields) : StreamFields :=
  { st with stream_channel := some channelId }

/-- The spec's tri-state invariant: `stream_url` and `stream_channel`
both set or both unset. -/
def streamInvariant (st : StreamFields) : Prop :=
  st.stream_url.isSome = st.stream_channel.isSome

/-! # Theorems -/

/-- `Python int()` of a nonnegative exact ratio is the floor. -/
theorem qtrunc_eq_floor (q : ℚ) (h : 0 ≤ q) : qtrunc q = ⌊q⌋ := by
  rw [qtrunc, Rat.floor_def, Int.tdiv_eq_ediv (Rat.num_nonneg.mpr h) (by positivity)]

/-! ## C6 — `_path_filter` is a fixed replacement table, but order matters -/

/-- C6 (amended): `_path_filter` is the fixed table `pathFilterTable` of
literal substring replacements applied in the source's order followed by
a whitespace strip, and it is deterministic; but it is not
order-independent: the `"@"` pattern overlaps the `"//"` pattern
(deleting `"@"` can create a new `"//"` occurrence), and applying the
`"@"` replacement before the `"//"` replacement yields `"-"` instead of
`"//"` on the input `"/@/"`. -/
theorem path_filter_fixed_order :
    (∀ s, pathFilter s = pyStrip (applyTable pathFilterTable s)) ∧
      pathFilter "/@/".data = "//".data ∧
      pyStrip (applyTable pathFilterTableSwapped "/@/".data) = "-".data := by
  refine ⟨fun s => ?_, by decide, by decide⟩
  simp [pathFilter, applyTable, pathFilterTable]

/-- C6 (counterexample): the reordered table `pathFilterTableSwapped` is
a permutation of the implemented table, yet on the concrete input
`"/@/"` it produces `"-"` while the implemented order produces `"//"` —
so applying the listed replacements in a different relative order does
not always yield the same output. -/
theorem path_filter_order_cex :
    List.Perm pathFilterTableSwapped pathFilterTable ∧
      pathFilter "/@/".data = "//".data ∧
      pyStrip (applyTable pathFilterTableSwapped "/@/".data) = "-".data ∧
      pyStrip (applyTable pathFilterTableSwapped "/@/".data) ≠
        pathFilter "/@/".data := by
  refine ⟨by decide, by decide, by decide, by decide⟩

/-! ## C8 — archiver chunk-rolling scenario -/

/-- C8: with the stream started at `T0`, the chunk-rolling step run at
`T0 + 1205 s` (chunk length 600 s, buffer 5 s, target file not yet
present) issues exactly one splice request, covering the window
`[T0 + 5, T0 + 605]`, with `splice_file` offsets 5 and 605 seconds into
the capture file. -/
theorem archiver_scenario (T0 : ℚ) :
    processStreamFile (some "ch") (T0 + 1205) T0 (fun _ _ => false)
      = some ⟨T0 + 5, T0 + 605, 5, 605⟩ := by
  have harg : (T0 + 1205 - ARCHIVE_BUFFER - (T0 + ARCHIVE_BUFFER)) / ARCHIVE_CHUNK
      = (1195 : ℚ) / 600 := by
    rw [ARCHIVE_BUFFER, ARCHIVE_CHUNK]; ring
  have hq : qtrunc ((T0 + 1205 - ARCHIVE_BUFFER - (T0 + ARCHIVE_BUFFER)) / ARCHIVE_CHUNK)
      = 1 := by
    rw [harg, qtrunc_eq_floor _ (by norm_num), Int.floor_eq_iff]
    norm_num
  have h5 : qtrunc (5 : ℚ) = 5 := by
    rw [qtrunc_eq_floor _ (by norm_num)]; norm_num
  have h605 : qtrunc (605 : ℚ) = 605 := by
    rw [qtrunc_eq_floor _ (by norm_num)]; norm_num
  simp only [processStreamFile, hq]
  norm_num [ARCHIVE_BUFFER, ARCHIVE_CHUNK, h5, h605]
  ring

/-! ## C1 — processor coverage condition -/

/-- C1 (amended): `_process_cut` splices a cut `[t, t + d]` from a chunk
window `[s, e]` only if `s < t + padding` and `e > t + d + 2·padding`
(padding = 20 s) — the source pads the *start* of the cut forward, not
backward — and the splice offsets into the chunk are
`t + padding − s` and `(t + padding − s) + d + padding`; when no chunk
satisfies this, the cut yields zero persisted records and no splice
invocation (the marker is left for a later tick). -/
theorem processor_coverage :
    (∀ (archives : List ArchiveFile) (c : Cut) (a : ArchiveFile) (ss se : ℚ),
        findArchive archives c = some (a, ss, se) →
          a.winStart < c.time + CUT_PADDING ∧
            a.winStop > c.time + c.duration + 2 * CUT_PADDING ∧
            ss = c.time + CUT_PADDING - a.winStart ∧
            se = ss + (c.duration + CUT_PADDING)) ∧
      ∀ (oracle : Cut → Option Nat) (archives : List ArchiveFile) (db : DB)
        (c : Cut), findArchive archives c = none →
          processCut oracle archives db c = ⟨false, db, false⟩ := by
  constructor
  · intro archives c a ss se h
    rw [findArchive] at h
    cases hf : archives.find?
        (fun a => a.winStart < c.time + CUT_PADDING &&
          a.winStop > c.time + CUT_PADDING + (c.duration + CUT_PADDING)) with
    | none => rw [hf] at h; exact absurd h (by simp)
    | some a' =>
      rw [hf] at h
      have hp := List.find?_some hf
      simp only [Bool.and_eq_true, decide_eq_true_eq] at hp
      simp only [Option.some.injEq, Prod.mk.injEq] at h
      obtain ⟨ha, hss, hse⟩ := h
      subst ha hss hse
      refine ⟨hp.1, by linarith [hp.2], by ring, by ring⟩
  · intro oracle archives db c h
    rw [processCut, h]

/-- C1 (witness): the cut `t = 100, d = 30` against the single chunk
`[0, 1000]` (which does satisfy the corrected condition, with splice
offsets 120 and 170), and against no chunks at all (no record, no
splice). -/
theorem processor_coverage_witness :
    ((⟨"a", 0, 1000⟩ : ArchiveFile).winStart
        < (⟨"g1", 100, 30, .song, "T", "A"⟩ : Cut).time + CUT_PADDING ∧
      (⟨"a", 0, 1000⟩ : ArchiveFile).winStop
        > (⟨"g1", 100, 30, .song, "T", "A"⟩ : Cut).time
            + (⟨"g1", 100, 30, .song, "T", "A"⟩ : Cut).duration
            + 2 * CUT_PADDING ∧
      (120 : ℚ) = (⟨"g1", 100, 30, .song, "T", "A"⟩ : Cut).time + CUT_PADDING
          - (⟨"a", 0, 1000⟩ : ArchiveFile).winStart ∧
      (170 : ℚ) = 120
          + ((⟨"g1", 100, 30, .song, "T", "A"⟩ : Cut).duration + CUT_PADDING)) ∧
    processCut (fun _ => some 2000) [] DB.empty ⟨"g1", 100, 30, .song, "T", "A"⟩
      = ⟨false, DB.empty, false⟩ :=
  ⟨processor_coverage.1 [⟨"a", 0, 1000⟩] ⟨"g1", 100, 30, .song, "T", "A"⟩
      ⟨"a", 0, 1000⟩ 120 170
      (by simp [findArchive, List.find?, CUT_PADDING]; norm_num),
    processor_coverage.2 (fun _ => some 2000) [] DB.empty
      ⟨"g1", 100, 30, .song, "T", "A"⟩ (by rw [findArchive]; rfl)⟩

/-- C1 (counterexample): the chunk window `[90, 200]` is selected for the
cut `t = 100, d = 30` (the splice offsets are 30 and 80 into the chunk),
although `s = 90` is not strictly below `t − padding = 80`: the chunk
does not strictly cover the claim's padded cut
`[t − padding, t + d + padding]`, refuting the claimed "only if". -/
theorem processor_coverage_cex :
    findArchive [⟨"a", 90, 200⟩] ⟨"g1", 100, 30, .song, "T", "A"⟩
        = some (⟨"a", 90, 200⟩, 30, 80) ∧
      (⟨"g1", 100, 30, .song, "T", "A"⟩ : Cut).time - CUT_PADDING
        ≤ (⟨"a", 90, 200⟩ : ArchiveFile).winStart := by
  constructor
  · simp [findArchive, List.find?, CUT_PADDING]; norm_num
  · simp [CUT_PADDING]; norm_num

/-! ## C2 — the evented loop services one event per queue per iteration -/

/-- C2 (amended): each iteration of the evented loop first polls every
subscribed inbound queue exactly once (`safe_get`, i.e. it handles the
head of each non-empty queue and no more), and then — only if the
minimum interval has elapsed since the last periodic tick — runs the
loop body; events beyond the first in a queue stay pending for later
iterations, so the body can run while a queue still holds pending
events. -/
theorem evented_single_get {E : Type} (queues : List (List E))
    (now lastLoop delay : ℚ) :
    (eventedIteration queues now lastLoop delay).handled
        = queues.filterMap List.head? ∧
      (eventedIteration queues now lastLoop delay).queues
        = queues.map List.tail ∧
      ((eventedIteration queues now lastLoop delay).bodyRan
        ↔ now > lastLoop + delay) := by
  have hs : ∀ (qs : List (List E)),
      serviceQueues qs = (qs.filterMap List.head?, qs.map List.tail) := by
    intro qs
    induction qs with
    | nil => rfl
    | cons q rest ih =>
      cases q <;> simp [serviceQueues, safeGet, ih, List.filterMap_cons]
  rw [eventedIteration, hs]
  by_cases h : now > lastLoop + delay <;> simp [h]

/-- C2 (counterexample): two events pending on the single subscribed
queue and the interval elapsed — the iteration handles only the first
event, runs the loop body, and leaves the second event pending, so the
body executed while a subscribed queue still held a pending event. -/
theorem evented_drain_cex :
    eventedIteration (E := ℕ) [[1, 2]] 1 0 0 = ⟨[1], [[2]], true, 1⟩ ∧
      ((eventedIteration (E := ℕ) [[1, 2]] 1 0 0).queues.any
          (fun q => !q.isEmpty)) = true := by
  have h : eventedIteration (E := ℕ) [[1, 2]] 1 0 0 = ⟨[1], [[2]], true, 1⟩ := by
    rw [eventedIteration]
    norm_num [serviceQueues, safeGet]
  exact ⟨h, by rw [h]; rfl⟩

/-! ## C9 — exception handling of the two run loops -/

/-- C9: when the `n+1`-st iteration of the loop raises, the evented
loop's `run` catches the exception (it is logged, nothing escapes) and
proceeds to `cleanup()`, while the plain periodic loop's `run` lets it
escape and never reaches `cleanup()`. -/
theorem run_exception_semantics {Err : Type} (n : ℕ) (e : Err)
    (post : List (Except Err Unit)) :
    runEvented (List.replicate n (.ok ()) ++ .error e :: post)
        = ⟨none, some e, true⟩ ∧
      runLooped (List.replicate n (.ok ()) ++ .error e :: post)
        = ⟨some e, none, false⟩ := by
  induction n with
  | zero => simp [runEvented, runLooped]
  | succ k ih => simpa [List.replicate_succ, runEvented, runLooped] using ih

/-! ## C10 — orphan deletion resolves against the working directory -/

/-- C10: when a capture file's name fails `_validate_name` (extension not
`mp3`, or channel prefix differing from the active channel), the removal
targets `cwd ++ [basename]` — the bare basename resolved in the current
working directory — so whenever the working directory is not the capture
folder, the file's presence at its absolute path inside the capture
folder is unchanged. -/
theorem orphan_delete_wrong_path (cwd streamFolder : AbsPath)
    (channel fileName : String) (fs : List AbsPath)
    (hinvalid : validName channel fileName = false)
    (hcwd : cwd ≠ streamFolder) :
    (validateNameStep cwd channel fileName fs).1 = false ∧
      (validateNameStep cwd channel fileName fs).2
        = fs.filter (fun p => p ≠ cwd ++ [fileName]) ∧
      ((streamFolder ++ [fileName]) ∈ (validateNameStep cwd channel fileName fs).2
        ↔ (streamFolder ++ [fileName]) ∈ fs) := by
  have hne : streamFolder ++ [fileName] ≠ cwd ++ [fileName] := by
    intro h
    exact hcwd (List.append_left_injective [fileName] h).symm
  rw [validateNameStep, hinvalid]
  refine ⟨rfl, rfl, ?_⟩
  simp [List.mem_filter, hne]

/-- C10 (witness): the file `x.aac` (wrong extension) inside the capture
folder `/streams`, with the worker's working directory `/proc`: the step
reports the file invalid, removes only `/proc/x.aac`, and
`/streams/x.aac` is still present. -/
theorem orphan_delete_wrong_path_witness :
    (validateNameStep ["proc"] "ch1" "x.aac" [["streams", "x.aac"]]).1 = false ∧
      (validateNameStep ["proc"] "ch1" "x.aac" [["streams", "x.aac"]]).2
        = [["streams", "x.aac"]].filter (fun p => p ≠ ["proc"] ++ ["x.aac"]) ∧
      ((["streams"] ++ ["x.aac"])
          ∈ (validateNameStep ["proc"] "ch1" "x.aac" [["streams", "x.aac"]]).2
        ↔ (["streams"] ++ ["x.aac"]) ∈ [["streams", "x.aac"]]) :=
  orphan_delete_wrong_path ["proc"] ["streams"] "ch1" "x.aac"
    [["streams", "x.aac"]] (by decide) (by decide)

/-! ## C7 — the stream-url/stream-channel tri-state invariant -/

/-- C7 (amended): `update_stream_data` preserves the both-set-or-both-
unset invariant whenever its payload pair has both components set or
both unset, and `update_channels` always preserves it; but
`handle_update_metadata_event` assigns `stream_channel` while leaving
`stream_url` untouched, so it does not preserve the invariant (from the
no-stream state it yields a state with only `stream_channel` set). -/
theorem stream_invariant_ops :
    (∀ (st : StreamFields) (v : Option String × Option String),
        streamInvariant st → v.2.isSome = v.1.isSome →
          streamInvariant (update_stream_data v st)) ∧
      (∀ (st : StreamFields) (v : Option (List String)),
          streamInvariant st → streamInvariant (update_channels v st)) ∧
      ∀ (st : StreamFields) (channelId : String),
        (handle_update_metadata_event channelId st).stream_channel
            = some channelId ∧
          (handle_update_metadata_event channelId st).stream_url
            = st.stream_url := by
  refine ⟨fun st v _ hv => hv, fun st v h => ?_, fun st channelId => ⟨rfl, rfl⟩⟩
  cases v with
  | none => simp [update_channels, streamInvariant]
  | some l => simpa [update_channels, streamInvariant] using h

/-- C7 (witness): from the no-stream state, `update_stream_data` with a
fully-set pair and `update_channels` with `None` both keep the
invariant, and the metadata handler's field effects are as stated. -/
theorem stream_invariant_ops_witness :
    streamInvariant
        (update_stream_data (some "ch1", some "http://u")
          ⟨none, none, none⟩) ∧
      streamInvariant (update_channels none ⟨some "u", some "c", some []⟩) ∧
      (handle_update_metadata_event "ch1" ⟨none, none, none⟩).stream_channel
          = some "ch1" ∧
      (handle_update_metadata_event "ch1" ⟨none, none, none⟩).stream_url
          = none :=
  ⟨stream_invariant_ops.1 ⟨none, none, none⟩ (some "ch1", some "http://u")
      rfl rfl,
    stream_invariant_ops.2.1 ⟨some "u", some "c", some []⟩ none rfl,
    stream_invariant_ops.2.2 ⟨none, none, none⟩ "ch1"⟩

/-- C7 (counterexample): the no-stream state satisfies the invariant,
and one `UPDATE_METADATA` handling (`handle_update_metadata_event`)
applied to it yields `stream_channel = some "ch1"` with
`stream_url = none` — a reachable state with exactly one of the two
set, violating the invariant. -/
theorem stream_invariant_cex :
    streamInvariant (⟨none, none, none⟩ : StreamFields) ∧
      (handle_update_metadata_event "ch1" ⟨none, none, none⟩).stream_channel
          = some "ch1" ∧
      (handle_update_metadata_event "ch1" ⟨none, none, none⟩).stream_url
          = none ∧
      ¬ streamInvariant (handle_update_metadata_event "ch1" ⟨none, none, none⟩) :=
  ⟨rfl, rfl, rfl, by simp [streamInvariant, handle_update_metadata_event]⟩

/-! ## C3 — supervisor shutdown: bounded, and what the pair reports -/

theorem terminateLoop_le (w : WorkerProc) :
    ∀ tries sent, terminateLoop w tries sent ≤ sent + tries := by
  intro tries
  induction tries with
  | zero => intro sent; simp [terminateLoop]
  | succ k ih =>
    intro sent
    rw [terminateLoop]
    split
    · exact (ih (sent + 1)).trans (by omega)
    · omega

theorem terminateSignals_le (w : WorkerProc) :
    terminateSignals w ≤ NUM_TRIES :=
  by simpa using terminateLoop_le w NUM_TRIES 0

theorem joinPhaseClock_le (endTime : ℚ) :
    ∀ (ws : List WorkerProc) (t : ℚ), t ≤ endTime →
      joinPhaseClock endTime t ws ≤ endTime := by
  intro ws
  induction ws with
  | nil => intro t ht; simpa [joinPhaseClock] using ht
  | cons w rest ih =>
    intro t ht
    rw [joinPhaseClock]
    apply ih
    have h1 : sleepSecs STOP_WAIT_SECS endTime t ≤ endTime - t := by
      rw [sleepSecs]
      exact max_le (by linarith) (min_le_left _ _)
    have h2 := min_le_right w.joinDuration (sleepSecs STOP_WAIT_SECS endTime t)
    linarith

theorem stopWorkersLoop_spec :
    ∀ ws : List WorkerProc,
      (stopWorkersLoop ws).1.1 = 0 ∧
        (stopWorkersLoop ws).1.2
          = (ws.map (fun w =>
              if aliveAfter w 0 then (if terminate w then (1 : ℤ) else 0)
              else if w.exitcode ≠ 0 then 2 else 0)).sum ∧
        (stopWorkersLoop ws).2
          = ws.filter (fun w => aliveAfter w 0 && !terminate w) := by
  intro ws
  induction ws with
  | nil => exact ⟨rfl, rfl, rfl⟩
  | cons w rest ih =>
    obtain ⟨ih1, ih2, ih3⟩ := ih
    rw [stopWorkersLoop, stopWorkerCounts]
    by_cases ha : aliveAfter w 0
    · by_cases ht : terminate w
      · simp [ha, ht, ih1, ih2, ih3]
      · simp [ha, ht, ih1, ih2, ih3]
    · by_cases he : w.exitcode ≠ 0
      · simp [ha, he, ih1, ih2, ih3]
      · simp [ha, he, ih1, ih2, ih3]

/-- C3 (amended): `stop_workers` always returns within its bounded
budget — the graceful-join pass never runs past
`end_time = start + STOP_WAIT_SECS`, and each worker still alive gets at
most `NUM_TRIES` terminate attempts with one `0.01 s` pause each — but
its return value is the pair `(failed_count, terminated_count)` in that
order, where `failed_count` is always `0`: a worker that could not be
terminated is not counted there (it is retained in the supervisor's
worker table instead), and `terminated_count` adds `1` per worker
terminated and `2` per worker found already exited with a non-zero exit
code. -/
theorem stop_workers_bounded_return (start : ℚ) (ws : List WorkerProc) :
    stopWorkersFinishClock start ws
        ≤ start + STOP_WAIT_SECS
          + (ws.length : ℚ) * ((NUM_TRIES : ℚ) * TERMINATE_PAUSE) ∧
      (stopWorkersLoop ws).1.1 = 0 ∧
      (stopWorkersLoop ws).1.2
        = (ws.map (fun w =>
            if aliveAfter w 0 then (if terminate w then (1 : ℤ) else 0)
            else if w.exitcode ≠ 0 then 2 else 0)).sum ∧
      (stopWorkersLoop ws).2
        = ws.filter (fun w => aliveAfter w 0 && !terminate w) := by
  refine ⟨?_, stopWorkersLoop_spec ws⟩
  rw [stopWorkersFinishClock]
  have hjoin := joinPhaseClock_le (start + STOP_WAIT_SECS) ws start
    (by rw [STOP_WAIT_SECS]; linarith)
  have hsum : (ws.map (fun w =>
      if aliveAfter w 0 then (terminateSignals w : ℚ) * TERMINATE_PAUSE
      else 0)).sum
      ≤ (ws.length : ℚ) * ((NUM_TRIES : ℚ) * TERMINATE_PAUSE) := by
    have hbound : ∀ x ∈ ws.map (fun w =>
        if aliveAfter w 0 then (terminateSignals w : ℚ) * TERMINATE_PAUSE
        else 0), x ≤ (NUM_TRIES : ℚ) * TERMINATE_PAUSE := by
      intro x hx
      obtain ⟨w, _, hw⟩ := List.mem_map.mp hx
      subst hw
      have h3 : ((terminateSignals w : ℚ)) ≤ (NUM_TRIES : ℚ) := by
        exact_mod_cast terminateSignals_le w
      have hp : (0 : ℚ) ≤ TERMINATE_PAUSE := by rw [TERMINATE_PAUSE]; norm_num
      split
      · exact mul_le_mul_of_nonneg_right h3 hp
      · positivity
    have := List.sum_le_card_nsmul _ _ hbound
    simpa [nsmul_eq_mul] using this
  calc joinPhaseClock (start + STOP_WAIT_SECS) start ws +
        (ws.map (fun w =>
          if aliveAfter w 0 then (terminateSignals w : ℚ) * TERMINATE_PAUSE
          else 0)).sum
      ≤ (start + STOP_WAIT_SECS)
          + (ws.length : ℚ) * ((NUM_TRIES : ℚ) * TERMINATE_PAUSE) := by
        exact add_le_add hjoin hsum
    _ = start + STOP_WAIT_SECS
          + (ws.length : ℚ) * ((NUM_TRIES : ℚ) * TERMINATE_PAUSE) := by ring

/-- C3 (counterexample): one worker that is alive and survives every
terminate signal.  `stop_workers` returns `(0, 0)` — the worker is kept
in the `still_running` table — whereas the claim's
`(terminated_count, failed_count)` pair for this input is `(0, 1)`:
`failed_count` in the source never counts an unkillable worker. -/
theorem stop_workers_pair_cex :
    (stopWorkersLoop [⟨none, true, 1, 0⟩]).1 = (0, 0) ∧
      claimTerminatedCount [⟨none, true, 1, 0⟩] = 0 ∧
      claimFailedCount [⟨none, true, 1, 0⟩] = 1 ∧
      (stopWorkersLoop [⟨none, true, 1, 0⟩]).1
        ≠ (claimTerminatedCount [⟨none, true, 1, 0⟩],
            claimFailedCount [⟨none, true, 1, 0⟩]) ∧
      (stopWorkersLoop [⟨none, true, 1, 0⟩]).2 = [⟨none, true, 1, 0⟩] := by
  refine ⟨by decide, by decide, by decide, by decide, by decide⟩

/-! ## C4 — connection backoff tiers and the failure-counter reset -/

/-- C4 (amended): an attempt made with at most one prior failure is
assigned the short tier (10 s) and one with exactly two prior failures
is assigned the medium tier (60 s) — so the third of three consecutive
failed attempts gets 60 s; and the failure counter resets to zero not on
success itself but when the connection status is read while connected
and more than 300 s have passed since the last failure, after which the
next failure is again assigned the short tier. -/
theorem backoff_tiers :
    (∀ (now : ℚ) (st : BackoffState), st.failures ≤ 1 →
        can_connect now st = true →
          (mark_attempt now st).1 = some COOLDOWN_SHORT ∧
            (mark_attempt now st).2.failures = st.failures + 1) ∧
      (∀ (now : ℚ) (st : BackoffState), st.failures = 2 →
          can_connect now st = true →
            (mark_attempt now st).1 = some COOLDOWN_MED ∧
              (mark_attempt now st).2.failures = 3) ∧
      (∀ (now : ℚ) (st : BackoffState), st.connected = true →
          now - st.last_failure > 300 →
            (is_connected now st).2.failures = 0) ∧
      ∀ (now now' : ℚ) (st : BackoffState), st.connected = true →
        now - st.last_failure > 300 →
        can_connect now' (is_connected now st).2 = true →
          (mark_attempt now' (is_connected now st).2).1 = some COOLDOWN_SHORT := by
  have hreset : ∀ (now : ℚ) (st : BackoffState), st.connected = true →
      now - st.last_failure > 300 → (is_connected now st).2.failures = 0 := by
    intro now st hc h
    simp [is_connected, hc, h]
  refine ⟨?_, ?_, hreset, ?_⟩
  · intro now st hf hc
    have hlt : st.failures + 1 < 3 := by omega
    simp [mark_attempt, hc, mark_failure, increase_cooldown, hlt]
  · intro now st hf hc
    simp [mark_attempt, hc, mark_failure, increase_cooldown, hf]
  · intro now now' st hc h hcc
    have h0 := hreset now st hc h
    simp [mark_attempt, hcc, mark_failure, increase_cooldown, h0]

/-- C4 (witness): the tier rules at concrete states: a first attempt at
`now = 1` from the fresh state gets 10 s; an attempt with two recorded
failures gets 60 s; reading the status at `now = 400` while connected,
with the last failure at 23, zeroes the counter; the next attempt at
`now' = 401` gets 10 s again. -/
theorem backoff_tiers_witness :
    ((mark_attempt 1 ⟨0, 0, 0, false⟩).1 = some COOLDOWN_SHORT ∧
        (mark_attempt 1 ⟨0, 0, 0, false⟩).2.failures = 0 + 1) ∧
      ((mark_attempt 100 ⟨2, 83, 23, false⟩).1 = some COOLDOWN_MED ∧
        (mark_attempt 100 ⟨2, 83, 23, false⟩).2.failures = 3) ∧
      (is_connected 400 ⟨3, 83, 23, true⟩).2.failures = 0 ∧
      (mark_attempt 401 (is_connected 400 ⟨3, 83, 23, true⟩).2).1
        = some COOLDOWN_SHORT :=
  ⟨backoff_tiers.1 1 ⟨0, 0, 0, false⟩ (by norm_num)
      (by rw [can_connect]; norm_num),
    backoff_tiers.2.1 100 ⟨2, 83, 23, false⟩ rfl
      (by rw [can_connect]; norm_num),
    backoff_tiers.2.2.1 400 ⟨3, 83, 23, true⟩ rfl (by norm_num),
    backoff_tiers.2.2.2 400 401 ⟨3, 83, 23, true⟩ rfl (by norm_num)
      (by rw [can_connect, is_connected]; norm_num)⟩

/-- C4 (counterexample): three failed attempts at times 1, 12, 23 (each
allowed by the cooldown) escalate to the medium tier; the upstream then
connects and `is_connected` is read at time 90 — a success, but only 67 s
after the last failure — so the counter is *not* reset, and the next
failure at time 100 is assigned the medium tier (60 s), not the short
tier the claim promises after any success. -/
theorem backoff_reset_cex :
    (mark_attempt 23 (mark_attempt 12 (mark_attempt 1 ⟨0, 0, 0, false⟩).2).2).1
        = some COOLDOWN_MED ∧
      (is_connected 90
          { (mark_attempt 23
              (mark_attempt 12 (mark_attempt 1 ⟨0, 0, 0, false⟩).2).2).2 with
            connected := true }).1 = true ∧
      (mark_attempt 100
          (is_connected 90
            { (mark_attempt 23
                (mark_attempt 12 (mark_attempt 1 ⟨0, 0, 0, false⟩).2).2).2 with
              connected := true }).2).1 = some COOLDOWN_MED ∧
      some COOLDOWN_MED ≠ some COOLDOWN_SHORT := by
  have h1 : mark_attempt 1 (⟨0, 0, 0, false⟩ : BackoffState)
      = (some 10, ⟨1, 11, 1, false⟩) := by
    norm_num [mark_attempt, can_connect, mark_failure, increase_cooldown,
      COOLDOWN_SHORT]
  have h2 : mark_attempt 12 (⟨1, 11, 1, false⟩ : BackoffState)
      = (some 10, ⟨2, 22, 12, false⟩) := by
    norm_num [mark_attempt, can_connect, mark_failure, increase_cooldown,
      COOLDOWN_SHORT]
  have h3 : mark_attempt 23 (⟨2, 22, 12, false⟩ : BackoffState)
      = (some 60, ⟨3, 83, 23, false⟩) := by
    norm_num [mark_attempt, can_connect, mark_failure, increase_cooldown,
      COOLDOWN_MED]
  have h4 : is_connected 90 (⟨3, 83, 23, true⟩ : BackoffState)
      = (true, ⟨3, 83, 23, true⟩) := by
    norm_num [is_connected]
  have h5 : mark_attempt 100 (⟨3, 83, 23, true⟩ : BackoffState)
      = (some 60, ⟨4, 160, 100, true⟩) := by
    norm_num [mark_attempt, can_connect, mark_failure, increase_cooldown,
      COOLDOWN_MED]
  rw [h1, h2, h3]
  refine ⟨by rw [COOLDOWN_MED], ?_, ?_, ?_⟩
  · rw [show ({ (⟨3, 83, 23, false⟩ : BackoffState) with connected := true }
        : BackoffState) = ⟨3, 83, 23, true⟩ from rfl, h4]
  · rw [show ({ (⟨3, 83, 23, false⟩ : BackoffState) with connected := true }
        : BackoffState) = ⟨3, 83, 23, true⟩ from rfl, h4, h5, COOLDOWN_MED]
  · rw [COOLDOWN_MED, COOLDOWN_SHORT]
    norm_num

/-! ## C5 — processor dedup -/

/-- `_process_cut` either leaves the store unchanged or appends one
record, of the cut's own kind, keyed by the cut's guid. -/
theorem processCut_db_cases (o : Cut → Option Nat) (a : List ArchiveFile)
    (db : DB) (c : Cut) :
    (processCut o a db c).db = db ∨
      (c.kind = CutKind.song ∧ (processCut o a db c).db
          = { db with songs := db.songs
              ++ [⟨c.guid, pathFilterStr c.title, pathFilterStr c.artist⟩] }) ∨
      (c.kind = CutKind.episode ∧ (processCut o a db c).db
          = { db with
              episodes := db.episodes ++ [⟨c.guid, pathFilterStr c.title⟩] }) := by
  cases hfa : findArchive a c with
  | none => left; rw [processCut, hfa]
  | some x =>
    cases hk : c.kind with
    | other => left; rw [processCut, hfa, hk]
    | episode =>
      cases ho : o c with
      | none => left; rw [processCut, hfa, hk, ho]
      | some size =>
        by_cases hs : size < 1000
        · left; rw [processCut, hfa, hk, ho]; simp [hs]
        · right; right
          refine ⟨rfl, ?_⟩
          rw [processCut, hfa, hk, ho]
          simp [hs]
    | song =>
      cases ho : o c with
      | none => left; rw [processCut, hfa, hk, ho]
      | some size =>
        by_cases hs : size < 1000
        · left; rw [processCut, hfa, hk, ho]; simp [hs]
        · right; left
          refine ⟨rfl, ?_⟩
          rw [processCut, hfa, hk, ho]
          simp [hs]

/-- What a false `shouldSkip` says: the duration is non-zero and the
relevant table has no record with the cut's guid. -/
theorem shouldSkip_false_elim (db : DB) (c : Cut)
    (h : shouldSkip db c = false) :
    c.duration ≠ 0 ∧
      (c.kind = CutKind.song → ∀ r ∈ db.songs, r.guid ≠ c.guid) ∧
      (c.kind = CutKind.episode → ∀ r ∈ db.episodes, r.guid ≠ c.guid) := by
  rw [shouldSkip] at h
  by_cases hd : c.duration = 0
  · rw [if_pos hd] at h; cases h
  · rw [if_neg hd] at h
    refine ⟨hd, ?_, ?_⟩
    · intro hk
      rw [hk] at h
      by_cases hcnt :
          MAX_DUPLICATE_COUNT ≤
            (db.songs.filter
              (fun r => r.title = c.title && r.artist = c.artist)).length
      · rw [if_pos hcnt] at h; cases h
      · rw [if_neg hcnt] at h
        intro r hr
        have := List.any_eq_false.mp h r hr
        simpa using this
    · intro hk
      rw [hk] at h
      intro r hr
      have := List.any_eq_false.mp h r hr
      simpa using this

/-- One `_process_cuts` pass preserves guid uniqueness and the
kind-assignment of the two tables, provided each cut's kind agrees with
the fixed kind of its guid. -/
theorem processCuts_inv (kindOf : String → CutKind) (o : Cut → Option Nat)
    (a : List ArchiveFile) :
    ∀ (cuts : List Cut) (db : DB),
      (∀ c ∈ cuts, c.kind = kindOf c.guid) →
      kindConsistent kindOf db → noDupGuids db →
      kindConsistent kindOf (processCuts o a db cuts).db ∧
        noDupGuids (processCuts o a db cuts).db := by
  intro cuts
  induction cuts with
  | nil => intro db _ hk hn; exact ⟨hk, hn⟩
  | cons c rest ih =>
    intro db hc hk hn
    rw [processCuts]
    by_cases hskip : shouldSkip db c
    · rw [if_pos hskip]
      exact ih db (fun x hx => hc x (List.mem_cons_of_mem _ hx)) hk hn
    · rw [if_neg hskip]
      apply ih _ (fun x hx => hc x (List.mem_cons_of_mem _ hx))
      all_goals
        rcases processCut_db_cases o a db c with hdb | ⟨hkind, hdb⟩ | ⟨hkind, hdb⟩
      · rw [hdb]; exact hk
      · rw [hdb]
        refine ⟨?_, hk.2⟩
        intro r hr
        rcases List.mem_append.mp hr with hr | hr
        · exact hk.1 r hr
        · have : r = ⟨c.guid, pathFilterStr c.title, pathFilterStr c.artist⟩ := by
            simpa using hr
          rw [this, ← (hc c (List.mem_cons_self _ _)), hkind]
      · rw [hdb]
        refine ⟨hk.1, ?_⟩
        intro r hr
        rcases List.mem_append.mp hr with hr | hr
        · exact hk.2 r hr
        · have : r = ⟨c.guid, pathFilterStr c.title⟩ := by simpa using hr
          rw [this, ← (hc c (List.mem_cons_self _ _)), hkind]
      · rw [hdb]; exact hn
      · rw [hdb]
        have hfresh := (shouldSkip_false_elim db c
          (Bool.not_eq_true _ ▸ hskip)).2.1 hkind
        refine ⟨?_, hn.2⟩
        rw [List.map_append, List.nodup_append]
        refine ⟨hn.1, by simp, ?_⟩
        intro g hg hg'
        simp only [List.map_cons, List.map_nil, List.mem_singleton] at hg'
        obtain ⟨r, hr, hrg⟩ := List.mem_map.mp hg
        exact hfresh r hr (by rw [hrg, hg'])
      · rw [hdb]
        have hfresh := (shouldSkip_false_elim db c
          (Bool.not_eq_true _ ▸ hskip)).2.2 hkind
        refine ⟨hn.1, ?_⟩
        rw [List.map_append, List.nodup_append]
        refine ⟨hn.2, by simp, ?_⟩
        intro g hg hg'
        simp only [List.map_cons, List.map_nil, List.mem_singleton] at hg'
        obtain ⟨r, hr, hrg⟩ := List.mem_map.mp hg
        exact hfresh r hr (by rw [hrg, hg'])

/-- The tick fold preserves both invariants. -/
theorem runTicks_inv (kindOf : String → CutKind) :
    ∀ (ticks : List TickInput) (db : DB),
      (∀ t ∈ ticks, ∀ c ∈ t.cuts, c.kind = kindOf c.guid) →
      kindConsistent kindOf db → noDupGuids db →
      kindConsistent kindOf (runTicks db ticks) ∧
        noDupGuids (runTicks db ticks) := by
  intro ticks
  induction ticks with
  | nil => intro db _ hk hn; exact ⟨hk, hn⟩
  | cons t rest ih =>
    intro db hticks hk hn
    rw [runTicks]
    have h := processCuts_inv kindOf t.oracle t.archives t.cuts db
      (hticks t (List.mem_cons_self _ _)) hk hn
    exact ih _ (fun x hx => hticks x (List.mem_cons_of_mem _ hx)) h.1 h.2

/-- A list whose projections are nodup has at most one element with any
given projection value. -/
theorem nodup_filter_length_le_one {α : Type} (f : α → String) :
    ∀ (l : List α), (l.map f).Nodup →
      ∀ g, (l.filter (fun r => f r = g)).length ≤ 1 := by
  intro l
  induction l with
  | nil => intro _ g; simp
  | cons a l ih =>
    intro h g
    rw [List.map_cons, List.nodup_cons] at h
    rw [List.filter_cons]
    by_cases hag : f a = g
    · rw [if_pos (by simpa using hag)]
      have hempty : l.filter (fun r => f r = g) = [] := by
        rw [List.filter_eq_nil_iff]
        intro r hr hrg
        apply h.1
        rw [hag, ← show f r = g from by simpa using hrg]
        exact List.mem_map_of_mem f hr
      rw [hempty]
      simp
    · rw [if_neg (by simpa using hag)]
      exact ih h.2 g

/-- The two invariants force at most one record in the whole store per
guid. -/
theorem guidCount_le_one_of_inv (kindOf : String → CutKind) (db : DB)
    (hk : kindConsistent kindOf db) (hn : noDupGuids db) (g : String) :
    DB.guidCount db g ≤ 1 := by
  rw [DB.guidCount]
  cases hkg : kindOf g with
  | song =>
    have hep : db.episodes.filter (fun r => r.guid = g) = [] := by
      rw [List.filter_eq_nil_iff]
      intro r hr hrg
      have := hk.2 r hr
      rw [show r.guid = g by simpa using hrg, hkg] at this
      cases this
    rw [hep]
    simpa using nodup_filter_length_le_one (fun r => r.guid) db.songs hn.1 g
  | episode =>
    have hs : db.songs.filter (fun r => r.guid = g) = [] := by
      rw [List.filter_eq_nil_iff]
      intro r hr hrg
      have := hk.1 r hr
      rw [show r.guid = g by simpa using hrg, hkg] at this
      cases this
    rw [hs]
    simpa using nodup_filter_length_le_one (fun r => r.guid) db.episodes hn.2 g
  | other =>
    have hs : db.songs.filter (fun r => r.guid = g) = [] := by
      rw [List.filter_eq_nil_iff]
      intro r hr hrg
      have := hk.1 r hr
      rw [show r.guid = g by simpa using hrg, hkg] at this
      cases this
    have hep : db.episodes.filter (fun r => r.guid = g) = [] := by
      rw [List.filter_eq_nil_iff]
      intro r hr hrg
      have := hk.2 r hr
      rw [show r.guid = g by simpa using hrg, hkg] at this
      cases this
    rw [hs, hep]
    simp

/-- C5: (i) starting from an empty store, any number of processing
ticks — each observing any archives, splice outcomes and cut markers —
creates at most one persisted record per guid, provided each guid
identifies markers of one kind (the data model's guid uniqueness); and
per tick a cut is skipped outright (no splice, no insert: the head cut
contributes nothing and processing equals processing the rest) when
(ii) an episode marker's guid already has a persisted episode record,
(iii) a song cut's guid already has a persisted song record, or (iv) a
song cut's raw `(title, artist)` pair already has at least
`MAX_DUPLICATE_COUNT = 3` persisted variants. -/
theorem processor_dedup (kindOf : String → CutKind) (ticks : List TickInput)
    (hticks : ∀ t ∈ ticks, ∀ c ∈ t.cuts, c.kind = kindOf c.guid) :
    (∀ g, DB.guidCount (runTicks DB.empty ticks) g ≤ 1) ∧
      (∀ (oracle : Cut → Option Nat) (archives : List ArchiveFile) (db : DB)
          (c : Cut) (rest : List Cut),
          c.kind = CutKind.episode →
          db.episodes.any (fun r => r.guid = c.guid) = true →
            processCuts oracle archives db (c :: rest)
              = processCuts oracle archives db rest) ∧
      (∀ (oracle : Cut → Option Nat) (archives : List ArchiveFile) (db : DB)
          (c : Cut) (rest : List Cut),
          c.kind = CutKind.song →
          db.songs.any (fun r => r.guid = c.guid) = true →
            processCuts oracle archives db (c :: rest)
              = processCuts oracle archives db rest) ∧
      ∀ (oracle : Cut → Option Nat) (archives : List ArchiveFile) (db : DB)
        (c : Cut) (rest : List Cut),
        c.kind = CutKind.song →
        MAX_DUPLICATE_COUNT ≤
          (db.songs.filter
            (fun r => r.title = c.title && r.artist = c.artist)).length →
          processCuts oracle archives db (c :: rest)
            = processCuts oracle archives db rest := by
  refine ⟨?_, ?_, ?_, ?_⟩
  · intro g
    have h := runTicks_inv kindOf ticks DB.empty hticks
      (by exact ⟨by simp [DB.empty], by simp [DB.empty]⟩)
      (by exact ⟨by simp [DB.empty], by simp [DB.empty]⟩)
    exact guidCount_le_one_of_inv kindOf _ h.1 h.2 g
  · intro oracle archives db c rest hk hany
    have hskip : shouldSkip db c = true := by
      rw [shouldSkip]
      by_cases hd : c.duration = 0
      · rw [if_pos hd]
      · rw [if_neg hd, hk]; exact hany
    rw [processCuts, if_pos hskip]
  · intro oracle archives db c rest hk hany
    have hskip : shouldSkip db c = true := by
      rw [shouldSkip]
      by_cases hd : c.duration = 0
      · rw [if_pos hd]
      · rw [if_neg hd, hk]
        by_cases hcnt :
            MAX_DUPLICATE_COUNT ≤
              (db.songs.filter
                (fun r => r.title = c.title && r.artist = c.artist)).length
        · rw [if_pos hcnt]
        · rw [if_neg hcnt]; exact hany
    rw [processCuts, if_pos hskip]
  · intro oracle archives db c rest hk hcnt
    have hskip : shouldSkip db c = true := by
      rw [shouldSkip]
      by_cases hd : c.duration = 0
      · rw [if_pos hd]
      · rw [if_neg hd, hk, if_pos hcnt]
    rw [processCuts, if_pos hskip]

/-- C5 (witness): one tick observing the same song marker twice still
leaves at most one record with its guid; an episode marker whose guid is
already stored, a song cut whose guid is already stored, and a song cut
whose raw `(title, artist)` pair already has three variants are each
skipped outright. -/
theorem processor_dedup_witness :
    DB.guidCount
        (runTicks DB.empty
          [⟨[⟨"a", 0, 1000⟩], fun _ => some 2000,
            [⟨"g1", 100, 30, .song, "T", "A"⟩,
              ⟨"g1", 100, 30, .song, "T", "A"⟩]⟩]) "g1" ≤ 1 ∧
      processCuts (fun _ => some 2000) [] ⟨[], [⟨"g2", "T2"⟩]⟩
          (⟨"g2", 50, 10, .episode, "T2", ""⟩ :: [])
        = processCuts (fun _ => some 2000) [] ⟨[], [⟨"g2", "T2"⟩]⟩ [] ∧
      processCuts (fun _ => some 2000) [] ⟨[⟨"g3", "T3", "A3"⟩], []⟩
          (⟨"g3", 50, 10, .song, "T3", "A3"⟩ :: [])
        = processCuts (fun _ => some 2000) [] ⟨[⟨"g3", "T3", "A3"⟩], []⟩ [] ∧
      processCuts (fun _ => some 2000) []
          ⟨[⟨"ga", "T", "A"⟩, ⟨"gb", "T", "A"⟩, ⟨"gc", "T", "A"⟩], []⟩
          (⟨"gd", 50, 10, .song, "T", "A"⟩ :: [])
        = processCuts (fun _ => some 2000) []
            ⟨[⟨"ga", "T", "A"⟩, ⟨"gb", "T", "A"⟩, ⟨"gc", "T", "A"⟩], []⟩ [] := by
  have h := processor_dedup (fun _ => CutKind.song)
    [⟨[⟨"a", 0, 1000⟩], fun _ => some 2000,
      [⟨"g1", 100, 30, .song, "T", "A"⟩, ⟨"g1", 100, 30, .song, "T", "A"⟩]⟩]
    (by intro t ht c hc; fin_cases ht; fin_cases hc <;> rfl)
  exact ⟨h.1 "g1",
    h.2.1 (fun _ => some 2000) [] ⟨[], [⟨"g2", "T2"⟩]⟩
      ⟨"g2", 50, 10, .episode, "T2", ""⟩ [] rfl (by decide),
    h.2.2.1 (fun _ => some 2000) [] ⟨[⟨"g3", "T3", "A3"⟩], []⟩
      ⟨"g3", 50, 10, .song, "T3", "A3"⟩ [] rfl (by decide),
    h.2.2.2 (fun _ => some 2000) []
      ⟨[⟨"ga", "T", "A"⟩, ⟨"gb", "T", "A"⟩, ⟨"gc", "T", "A"⟩], []⟩
      ⟨"gd", 50, 10, .song, "T", "A"⟩ [] rfl (by decide)⟩

end SxmPlayer
